import Mathlib

/-!
Verification of the resumable scan-and-dispatch reminder pipeline of the
sheet-tasker repository (`src/manage-taskSheets.js`).

The data model and the operations are shallowly embedded: dates are modelled
at calendar-day granularity as `Nat` (days since 1970-01-01, so the weekday of
day `d` is `(d + 4) % 7`, day 0 being a Thursday), the script-properties store
is a record of the keys the pipeline owns for one (target, period) key, and
every stateful function is a pure function from the old store (plus its
environment) to the new store together with its observable effects (returned
value, emails sent, documents rendered, completion-status writes).
-/

/-- Reserved index sheet name (from `variables.js`): the ongoing-task index. -/
def ONGOING_TASKS_INDEX_SHEET_NAME : String := "ongoing-task-index"

/-- Reserved index sheet name (from `variables.js`): the completed-task index. -/
def COMPLETED_TASKS_INDEX_SHEET_NAME : String := "completed-task-index"

/-- An ASCII apostrophe, used in email titles built by the source code. -/
def apos : String := String.singleton (Char.ofNat 39)

/-- JavaScript `Date.getDay()` for epoch day `d` (1970-01-01 was a Thursday). -/
def getDay (d : Nat) : Nat := (d + 4) % 7

/-- Weekend test used by `getReminderData`: `getDay` is 0 (Sunday) or 6 (Saturday). -/
def isWeekend (d : Nat) : Bool := getDay d == 0 || getDay d == 6

/-- Fuelled version of the `while (day==0 || day==6)` skip loop; fuel 7 always
suffices because weekends are at most two consecutive days. -/
def skipWeekendAux : Nat → Nat → Nat
  | 0, d => d
  | n + 1, d => if isWeekend d then skipWeekendAux n (d + 1) else d

/-- The `while` loop of `getReminderData` that advances past Saturday/Sunday. -/
def skipWeekend (d : Nat) : Nat := skipWeekendAux 7 d

/-- The `for (let i = 1; i <= 5; i++)` loop of `getReminderData`: advance one
day, skip weekend days, record the date, repeat. -/
def addBusinessDays : Nat → Nat → List Nat
  | 0, _ => []
  | n + 1, d =>
    let d2 := skipWeekend (d + 1)
    d2 :: addBusinessDays n d2

/-- The `validDates` array of `getReminderData`: today followed by the next
five business days. -/
def mkValidDates (today : Nat) : List Nat := today :: addBusinessDays 5 today

/-- Month names used by `ReminderManager.formatEnglishDate`. -/
def monthNames : List String :=
  ["January", "February", "March", "April", "May", "June", "July",
   "August", "September", "October", "November", "December"]

/-- Day-of-week names used by `ReminderManager.formatEnglishDate`. -/
def dayNames : List String :=
  ["Sunday", "Monday", "Tuesday", "Wednesday", "Thursday", "Friday", "Saturday"]

/-- Gregorian (year, month, day) of an epoch day (civil-from-days algorithm). -/
def civilFromDays (z0 : Nat) : Nat × Nat × Nat :=
  let z := z0 + 719468
  let era := z / 146097
  let doe := z % 146097
  let yoe := (doe - doe / 1460 + doe / 36524 - doe / 146096) / 365
  let y := yoe + era * 400
  let doy := doe - (365 * yoe + yoe / 4 - yoe / 100)
  let mp := (5 * doy + 2) / 153
  let dd := doy - (153 * mp + 2) / 5 + 1
  let m := if mp < 10 then mp + 3 else mp - 9
  (if m ≤ 2 then y + 1 else y, m, dd)

/-- Embeds `ReminderManager.formatEnglishDate`: e.g. day 0 is
"Thursday, January 1, 1970". -/
def formatEnglishDate (d : Nat) : String :=
  let c := civilFromDays d
  (dayNames.getD (getDay d) "") ++ ", " ++ (monthNames.getD (c.2.1 - 1) "") ++ " "
    ++ toString c.2.2 ++ ", " ++ toString c.1

/-- The `Reminder` class: one work item extracted from a task-sheet row. -/
structure Reminder where
  item : String
  note : String
  date : String
  staff : String
deriving DecidableEq, Repr

/-- The `SheetReminder` class: one source sheet's contribution to the output. -/
structure SheetReminder where
  sheetName : String
  sheetURL : String
  taskData : List Reminder
deriving DecidableEq, Repr

/-- One data row of a task sheet (columns B..F): item, summary/note, due date
(`none` models an empty date cell), staff, and the completion checkbox. -/
structure Row where
  item : String
  note : String
  date : Option Nat
  staff : String
  checkbox : Bool
deriving DecidableEq, Repr

/-- One sheet of the spreadsheet: its name, its sheet id (for the URL
fragment), and its data rows (the rows after the header row). -/
structure Sheet where
  sheetName : String
  gid : Nat
  rows : List Row
deriving DecidableEq, Repr

/-- The environment of one `ReminderManager` run: the spreadsheet's sheets and
URL, the constructor arguments `target` and `period`, and the current date. -/
structure Env where
  sheets : List Sheet
  ssUrl : String
  target : String
  period : String
  today : Nat
deriving DecidableEq, Repr

/-- The side record `createOneTimeTrigger` persists for a scheduled trigger:
the scheduled function's name plus the (target, period) tag. -/
structure TriggerRec where
  functionName : String
  target : String
  period : String
deriving DecidableEq, Repr

/-- Embeds `charAt(0).toUpperCase() + slice(1)` from `createOneTimeTrigger`:
upper-case the first character, keep the rest. -/
def capitalizeFirst (s : String) : String :=
  match s.data with
  | [] => s
  | c :: cs => ⟨Char.toUpper c :: cs⟩

/-- The continuation function name `createOneTimeTrigger` constructs. -/
def triggerFunctionName (target period : String) : String :=
  "run" ++ capitalizeFirst target ++ "Reminder" ++ capitalizeFirst period

/-- The trigger record written by `createOneTimeTrigger`. -/
def mkTrigger (target period : String) : TriggerRec :=
  ⟨triggerFunctionName target period, target, period⟩

/-- Embeds `deleteOneTimeTriggers`: remove exactly the trigger records whose stored
info matches this manager's target and period. -/
def deleteOneTimeTriggers (target period : String) (ts : List TriggerRec) : List TriggerRec :=
  ts.filter (fun t => !(t.target == target && t.period == period))

/-- The script-property state owned by one (target, period) key.
`storedData` models the stored-reminders string: `none` is an absent key,
`some none` a present but unparseable payload, `some (some l)` a payload that
parses to `l`. `sheetIndex` models the cursor string the same way
(`some none` is a string on which `parseInt` yields `NaN`). `completion` is
the completion-status value, `none` when the key is absent. `triggers` is the
project's trigger list together with each trigger's persisted info record. -/
structure Props where
  storedData : Option (Option (List SheetReminder))
  sheetIndex : Option (Option Nat)
  completion : Option String
  triggers : List TriggerRec
deriving DecidableEq, Repr

/-- Row filter of `getReminderData`, exactly as the source computes it: skip
empty date cells, then for period `today` keep unchecked rows with
`date <= today`, for period `week` keep unchecked rows with `date <= today`
or a date equal to one of `validDates`. -/
def rowTask (period : String) (today : Nat) (validDates : List Nat) (r : Row) : Option Reminder :=
  match r.date with
  | none => none
  | some dateStr =>
    let dateInfo := formatEnglishDate dateStr
    let isFutureValidDate := validDates.any (fun v => v == dateStr)
    if period == "today" then
      if !r.checkbox && decide (dateStr ≤ today) then
        some ⟨r.item, r.note, dateInfo, r.staff⟩
      else none
    else if period == "week" then
      if !r.checkbox && (decide (dateStr ≤ today) || isFutureValidDate) then
        some ⟨r.item, r.note, dateInfo, r.staff⟩
      else none
    else none

/-- Per-sheet body of the scan loop: reserved index sheets are skipped, other
sheets contribute a `SheetReminder` exactly when at least one row qualifies. -/
def processSheet (env : Env) (sh : Sheet) : Option SheetReminder :=
  if sh.sheetName == ONGOING_TASKS_INDEX_SHEET_NAME
      || sh.sheetName == COMPLETED_TASKS_INDEX_SHEET_NAME then none
  else
    let taskData := sh.rows.filterMap (rowTask env.period env.today (mkValidDates env.today))
    if taskData.isEmpty then none
    else some ⟨sh.sheetName, env.ssUrl ++ "#gid=" ++ toString sh.gid, taskData⟩

/-- Outcome of the scan loop: completed with the accumulated reports, or
suspended at a sheet index with the reports accumulated so far. -/
inductive ScanOutcome where
  | done : List SheetReminder → ScanOutcome
  | suspended : Nat → List SheetReminder → ScanOutcome
deriving DecidableEq, Repr

/-- The `for` loop of `getReminderData` over the sheets from the cursor on.
`fuel` models the elapsed-time budget: `some f` means the time check trips at
the start of the `(f+1)`-th iteration of this invocation, `none` means the
budget is never exceeded. The check runs before each sheet, so with remaining
sheets and fuel `some 0` the loop suspends at the current index `i`. -/
def scanGo (env : Env) : Option Nat → Nat → List Sheet → List SheetReminder → ScanOutcome
  | _, _, [], acc => .done acc
  | some 0, i, _ :: _, acc => .suspended i acc
  | some (f + 1), i, sh :: rest, acc =>
    scanGo env (some f) (i + 1) rest (acc ++ (processSheet env sh).toList)
  | none, i, sh :: rest, acc =>
    scanGo env none (i + 1) rest (acc ++ (processSheet env sh).toList)

/-- Result of one `getReminderData` invocation: the new property state, the
returned value (`none` models the bare `return` on timeout), and the sequence
of completion-status writes the invocation performed (`some s` writes value
`s`, `none` deletes the key). -/
structure ScanResult where
  props : Props
  result : Option (List SheetReminder)
  statusWrites : List (Option String)
deriving DecidableEq, Repr

/-- Embeds `ReminderManager.getReminderData` as a pure state transformer.
It loads the stored reminders (an unparseable payload leaves the accumulator
empty), sets the completion status to `"NOT YET"`, reads the cursor
(absent key means 0, an unparseable value means `NaN`, which makes the `for`
loop run zero iterations), then runs the scan loop. On suspension it persists
the accumulator and cursor, appends a continuation trigger, and returns
nothing; on completion it deletes both keys, deletes its own triggers, sets
the status to `"COMPLETED"` and returns the accumulated reports.
`loadReminders` models the guarded `JSON.parse` of the stored payload: an
absent or unparseable payload leaves the accumulator empty. -/
def loadReminders (sd : Option (Option (List SheetReminder))) : List SheetReminder :=
  match sd with
  | some (some l) => l
  | _ => []

/-- The cursor read `parseInt(getProperty(currentSheetIndexKey) || this, '0')`:
an absent key yields 0, an unparseable value yields `NaN` (modelled `none`),
and a stored index parses back to itself. -/
def loadCursor (si : Option (Option Nat)) : Option Nat :=
  match si with
  | none => some 0
  | some none => none
  | some (some n) => some n

def getReminderData (env : Env) (fuel : Option Nat) (p : Props) : ScanResult :=
  let reminderData : List SheetReminder := loadReminders p.storedData
  match loadCursor p.sheetIndex with
  | none =>
    ⟨{ storedData := none, sheetIndex := none,
       completion := some "COMPLETED",
       triggers := deleteOneTimeTriggers env.target env.period p.triggers },
     some reminderData,
     [some "NOT YET", some "COMPLETED"]⟩
  | some c =>
    match scanGo env fuel c (env.sheets.drop c) reminderData with
    | .done acc =>
      ⟨{ storedData := none, sheetIndex := none,
         completion := some "COMPLETED",
         triggers := deleteOneTimeTriggers env.target env.period p.triggers },
       some acc,
       [some "NOT YET", some "COMPLETED"]⟩
    | .suspended i acc =>
      ⟨{ storedData := some (some acc), sheetIndex := some (some i),
         completion := some "NOT YET",
         triggers := p.triggers ++ [mkTrigger env.target env.period] },
       none,
       [some "NOT YET"]⟩

/-- An element of a reminder document body: the intro paragraph, a sheet
heading carrying a link, or a table of cell texts. -/
inductive DocElem where
  | para : String → DocElem
  | heading : String → String → DocElem
  | table : List (List String) → DocElem
deriving DecidableEq, Repr

/-- A Google Document as the pipeline observes it: its name and its body. -/
structure Doc where
  docName : String
  body : List DocElem
deriving DecidableEq, Repr

/-- Embeds `ReminderManager.presetInDoc`: clear the body, set the document name, and
for the `today` period append the red intro paragraph. -/
def presetInDoc (period docTitle : String) (d : Doc) : Doc :=
  let d1 : Doc := { d with body := [] }
  let d2 : Doc := { d1 with docName := docTitle }
  if period == "today" then
    { d2 with body := d2.body ++ [.para ("*Once the item is completed, input \"C\"!")] }
  else d2

/-- Table cell texts built by `createEachTable`: a header row, then one row
per task; the `today` period has a fifth, empty completion column. -/
def tableRows (period : String) (taskData : List Reminder) : List (List String) :=
  let headers := if period == "today"
    then ["Item", "Summary", "Date", "Staff", "Complete"]
    else ["Item", "Summary", "Date", "Staff"]
  headers :: taskData.map (fun t =>
    if period == "today" then [t.item, t.note, t.date, t.staff, ""]
    else [t.item, t.note, t.date, t.staff])

/-- Embeds `ReminderManager.createReminderTablesInDoc`: append, per `SheetReminder`,
a linked heading and the table of its tasks. -/
def createReminderTablesInDoc (period : String) (reminderData : List SheetReminder) (d : Doc) : Doc :=
  { d with body := d.body ++ (reminderData.map (fun sr =>
      [DocElem.heading sr.sheetName sr.sheetURL, DocElem.table (tableRows period sr.taskData)])).flatten }

/-- The render step of the dispatch stage: `presetInDoc` followed by
`createReminderTablesInDoc`. -/
def renderReminderDoc (period docTitle : String) (reminderData : List SheetReminder) (d : Doc) : Doc :=
  createReminderTablesInDoc period reminderData (presetInDoc period docTitle d)

/-- Embeds `ReminderManager.filterRemindersForStaff`, exactly as the source writes
it: keep the sheets with at least one task of this staff member, then map
each kept sheet to one restricted to that member's tasks. -/
def filterRemindersForStaff (reminderData : List SheetReminder) (staffName : String) :
    List SheetReminder :=
  (reminderData.filter (fun sheetReminder =>
      sheetReminder.taskData.any (fun task => task.staff == staffName))).map
    (fun sheetReminder =>
      ⟨sheetReminder.sheetName, sheetReminder.sheetURL,
        sheetReminder.taskData.filter (fun task => task.staff == staffName)⟩)

/-- One email sent by the dispatch stage: recipient value, subject, the
`successOrFailure` indicator (or `"error"` for the missing-configuration
notification to the active user), and the displayed document URL if any. -/
structure Email where
  recipient : String
  subject : String
  kind : String
  docUrl : Option String
deriving DecidableEq, Repr

/-- Per-staff configuration record of `staffBasedReminderData`. -/
structure StaffInfo where
  email : String
  todayReminderUrl : Option String
  nextWeekReminderUrl : Option String
deriving DecidableEq, Repr

/-- The `generalReminderDocsUrls` configuration object. -/
structure GeneralDocUrls where
  generalTodayReminderDocUrl : Option String
  generalWeekReminderDocUrl : Option String
deriving DecidableEq, Repr

/-- The configuration snapshot `shareRemindersByDoc` reads from the script
properties (each `none` models a `null` parse result). -/
structure Config where
  generalReminderEmails : Option String
  generalReminderDocsUrls : Option GeneralDocUrls
  staffBasedReminderData : Option (List (String × StaffInfo))
  activeUserEmail : String
deriving DecidableEq, Repr

/-- Observable outcome of the dispatch stage: the new property state, the
emails sent in order, the documents rendered (destination URL and final
content, the prior content being irrelevant because rendering clears it),
and the completion-status writes performed. -/
structure DispatchOut where
  props : Props
  emails : List Email
  docs : List (String × Doc)
  statusWrites : List (Option String)
deriving DecidableEq, Repr

/-- Body of the `staffBasedReminderData.forEach` loop of
`shareRemindersByDoc` for one configured staff member. -/
def staffDispatch (env : Env) (reminderData : List SheetReminder)
    (entry : String × StaffInfo) : List Email × List (String × Doc) :=
  let staffName := entry.1
  let staffInfo := entry.2
  if env.period == "today" then
    let title := "Today" ++ apos ++ "s Reminder for " ++ staffName ++ " on "
      ++ formatEnglishDate env.today
    match staffInfo.todayReminderUrl with
    | some url =>
      let staffSpecificReminders := filterRemindersForStaff reminderData staffName
      ([⟨staffInfo.email, title, "success", some url⟩],
       [(url, renderReminderDoc env.period title staffSpecificReminders ⟨"", []⟩)])
    | none => ([⟨staffInfo.email, title, "failure", none⟩], [])
  else if env.period == "week" then
    let title := "Next Week" ++ apos ++ "s Reminder for " ++ staffName ++ " on "
      ++ formatEnglishDate env.today
    match staffInfo.nextWeekReminderUrl with
    | some url =>
      let staffSpecificReminders := filterRemindersForStaff reminderData staffName
      ([⟨staffInfo.email, title, "success", some url⟩],
       [(url, renderReminderDoc env.period title staffSpecificReminders ⟨"", []⟩)])
    | none => ([⟨staffInfo.email, title, "failure", none⟩], [])
  else ([], [])

/-- Subject line of the missing-configuration error email. -/
def configErrorSubject : String := "Error on Sharing General Reminders (Today or Next Week)"

/-- The gate-checked part of `ReminderManager.shareRemindersByDoc`: the code
after the `getReminderData` call, taking the property state the scan left and
the value it returned. On status `"NOT YET"` it returns at once; on status
`"COMPLETED"` it returns at once when the result is not a non-empty array,
and otherwise renders and notifies per target. The trailing
`deleteProperty(completionStatusKey)` is reached only on control paths that
do not `return` inside the target branches. Any other status value falls
through both status checks and does nothing. -/
def dispatchStage (env : Env) (cfg : Config) (p : Props)
    (reminderData : Option (List SheetReminder)) : DispatchOut :=
  if p.completion == some "NOT YET" then ⟨p, [], [], []⟩
  else if p.completion == some "COMPLETED" then
    match reminderData with
    | none => ⟨p, [], [], []⟩
    | some [] => ⟨p, [], [], []⟩
    | some rdl =>
      if env.target == "general" then
        match cfg.generalReminderEmails, cfg.generalReminderDocsUrls with
        | some emails, some urls =>
          if env.period == "today" then
            let title := "Today" ++ apos ++ "s General Reminder on "
              ++ formatEnglishDate env.today
            match urls.generalTodayReminderDocUrl with
            | some url =>
              ⟨p, [⟨emails, title, "success", some url⟩],
               [(url, renderReminderDoc env.period title rdl ⟨"", []⟩)], []⟩
            | none => ⟨p, [⟨emails, title, "failure", none⟩], [], []⟩
          else if env.period == "week" then
            let title := "Next Week" ++ apos ++ "s General Reminder on "
              ++ formatEnglishDate env.today
            match urls.generalWeekReminderDocUrl with
            | some url =>
              ⟨p, [⟨emails, title, "success", some url⟩],
               [(url, renderReminderDoc env.period title rdl ⟨"", []⟩)], []⟩
            | none => ⟨p, [⟨emails, title, "failure", none⟩], [], []⟩
          else
            ⟨{ p with completion := none }, [], [], [none]⟩
        | _, _ =>
          ⟨p, [⟨cfg.activeUserEmail, configErrorSubject, "error", none⟩], [], []⟩
      else if env.target == "staffBased" then
        match cfg.staffBasedReminderData with
        | some staffList =>
          let eff := staffList.map (staffDispatch env rdl)
          ⟨{ p with completion := none },
           (eff.map Prod.fst).flatten, (eff.map Prod.snd).flatten, [none]⟩
        | none =>
          ⟨p, [⟨cfg.activeUserEmail, configErrorSubject, "error", none⟩], [], []⟩
      else
        ⟨{ p with completion := none }, [], [], [none]⟩
  else ⟨p, [], [], []⟩

/-- Embeds `ReminderManager.shareRemindersByDoc`: run the scan, then the
gate-checked dispatch stage on the state and value the scan produced. The
status-write trace concatenates both stages' writes. -/
def shareRemindersByDoc (env : Env) (cfg : Config) (fuel : Option Nat) (p : Props) : DispatchOut :=
  let s := getReminderData env fuel p
  let d := dispatchStage env cfg s.props s.result
  ⟨d.props, d.emails, d.docs, s.statusWrites ++ d.statusWrites⟩

/-- The four global reminder entry points defined at the bottom of
`manage-taskSheets.js`, each paired with the (target, period) of the
`ReminderManager` it constructs and runs. -/
def reminderEntryPoints : List (String × String × String) :=
  [("runGeneralReminderToday", "general", "today"),
   ("runGeneralReminderWeek", "general", "week"),
   ("runStaffBasedReminderToday", "staffBased", "today"),
   ("runStaffBasedReminderNextWeek", "staffBased", "week")]

/-- Modelled from the spec: the "next five weekday-only
(Saturday/Sunday skipped) dates" after `today`, written declaratively as the
first five non-weekend days strictly after `today` (a window of 15 calendar
days always contains at least five weekdays). -/
def specNextFiveWeekdays (today : Nat) : List Nat :=
  ((((List.range 15).map (fun k => today + 1 + k)).filter
      (fun d => !isWeekend d)).take 5)

/-- Modelled from the spec: a row qualifies iff its due-date cell is
non-empty, it is not marked complete, and its date is on or before today —
or, for the WEEK horizon only, equals one of the next five weekday dates. -/
def specQualifies (period : String) (today : Nat) (r : Row) : Bool :=
  match r.date with
  | none => false
  | some d =>
    !r.checkbox &&
      (decide (d ≤ today) || (period == "week" && (specNextFiveWeekdays today).contains d))

/-- Spec-side item extraction: the `Reminder` of a qualifying row. -/
def specTaskOf (period : String) (today : Nat) (r : Row) : Option Reminder :=
  match r.date with
  | none => none
  | some d =>
    if specQualifies period today r then
      some ⟨r.item, r.note, formatEnglishDate d, r.staff⟩
    else none

/-- Spec-side per-source report: no report for the two reserved index views,
and no report for a source with zero qualifying rows. -/
def specSheetReport (env : Env) (sh : Sheet) : Option SheetReminder :=
  if sh.sheetName == ONGOING_TASKS_INDEX_SHEET_NAME
      || sh.sheetName == COMPLETED_TASKS_INDEX_SHEET_NAME then none
  else
    let ts := sh.rows.filterMap (specTaskOf env.period env.today)
    if ts.isEmpty then none
    else some ⟨sh.sheetName, env.ssUrl ++ "#gid=" ++ toString sh.gid, ts⟩

/-- Spec-side output of a full scan over all sources. -/
def specScanOutput (env : Env) : List SheetReminder :=
  env.sheets.filterMap (specSheetReport env)

/-- Property state with no checkpoint and no completion status. -/
def cleanProps (ts : List TriggerRec) (st : Option String) : Props :=
  ⟨none, none, st, ts⟩

/-- The reports of the first `c` sources, in enumeration order. -/
def reportsUpTo (env : Env) (c : Nat) : List SheetReminder :=
  (env.sheets.take c).filterMap (processSheet env)

/-- The result of an uninterrupted scan over all sources. -/
def fullScan (env : Env) : List SheetReminder :=
  env.sheets.filterMap (processSheet env)

/-- Property state holding a consistent checkpoint at cursor `c`. -/
def checkpointProps (env : Env) (c : Nat) (ts : List TriggerRec) (st : Option String) : Props :=
  ⟨some (some (reportsUpTo env c)), some (some c), st, ts⟩

/-- A sequence of `getReminderData` invocations over unchanged source data,
threading the property state; the pair returned is the final state together
with the value the last invocation returned. -/
def runScanSeq (env : Env) : List (Option Nat) → Props → Props × Option (List SheetReminder)
  | [], p => (p, none)
  | fuel :: rest, p =>
    let s := getReminderData env fuel p
    match rest with
    | [] => (s.props, s.result)
    | _ :: _ => runScanSeq env rest s.props

/-- Weekend-ness is periodic with period seven. -/
theorem isWeekend_add_seven (d : Nat) : isWeekend (d + 7) = isWeekend d := by
  unfold isWeekend getDay
  have h : (d + 7 + 4) % 7 = (d + 4) % 7 := by omega
  rw [h]

/-- The weekend-skip loop commutes with shifting by a week. -/
theorem skipWeekendAux_add_seven (n : Nat) :
    ∀ d, skipWeekendAux n (d + 7) = skipWeekendAux n d + 7 := by
  induction n with
  | zero => intro d; rfl
  | succ n ih =>
    intro d
    simp only [skipWeekendAux, isWeekend_add_seven]
    cases hw : isWeekend d with
    | true =>
      simp only [if_true]
      have h1 : d + 7 + 1 = (d + 1) + 7 := by omega
      rw [h1, ih]
    | false => simp

/-- The function `skipWeekend` commutes with shifting by a week. -/
theorem skipWeekend_add_seven (d : Nat) : skipWeekend (d + 7) = skipWeekend d + 7 :=
  skipWeekendAux_add_seven 7 d

/-- The business-day iteration commutes with shifting by a week. -/
theorem addBusinessDays_add_seven (n : Nat) :
    ∀ d, addBusinessDays n (d + 7) = (addBusinessDays n d).map (· + 7) := by
  induction n with
  | zero => intro d; rfl
  | succ n ih =>
    intro d
    simp only [addBusinessDays]
    have h1 : d + 7 + 1 = (d + 1) + 7 := by omega
    rw [h1, skipWeekend_add_seven, ih, List.map_cons]

/-- The `validDates` list commutes with shifting by a week. -/
theorem mkValidDates_add_seven (t : Nat) :
    mkValidDates (t + 7) = (mkValidDates t).map (· + 7) := by
  simp only [mkValidDates, addBusinessDays_add_seven, List.map_cons]

/-- The spec-side five weekday dates commute with shifting by a week. -/
theorem specNextFiveWeekdays_add_seven (t : Nat) :
    specNextFiveWeekdays (t + 7) = (specNextFiveWeekdays t).map (· + 7) := by
  unfold specNextFiveWeekdays
  have h1 : (List.range 15).map (fun k => t + 7 + 1 + k)
      = ((List.range 15).map (fun k => t + 1 + k)).map (· + 7) := by
    rw [List.map_map]
    apply List.map_congr_left
    intro k _
    simp only [Function.comp_apply]
    omega
  rw [h1]
  rw [List.filter_map]
  have h2 : ((fun d => !isWeekend d) ∘ (· + 7)) = (fun d => !isWeekend d) := by
    funext d
    simp [Function.comp_apply, isWeekend_add_seven]
  rw [h2, ← List.map_take]

/-- Base cases for the weekday-list equivalence: the first seven days. -/
theorem mkValidDates_base :
    ∀ t, t < 7 → mkValidDates t = t :: specNextFiveWeekdays t := by decide

/-- The scan's iteratively computed `validDates` is exactly today followed by
the five weekday-only dates of the spec. -/
theorem mkValidDates_spec (t : Nat) : mkValidDates t = t :: specNextFiveWeekdays t := by
  induction t using Nat.strong_induction_on with
  | _ t ih =>
    by_cases h : t < 7
    · exact mkValidDates_base t h
    · have h7 : t = (t - 7) + 7 := by omega
      rw [h7, mkValidDates_add_seven, specNextFiveWeekdays_add_seven,
        ih (t - 7) (by omega), List.map_cons]

/-- For the two real horizons the scan's row filter agrees with the
spec-side qualification predicate. -/
theorem rowTask_eq_specTaskOf (period : String) (today : Nat) (r : Row)
    (h : period = "today" ∨ period = "week") :
    rowTask period today (mkValidDates today) r = specTaskOf period today r := by
  unfold rowTask specTaskOf specQualifies
  cases hd : r.date with
  | none => rfl
  | some d =>
    rcases h with h | h <;> subst h
    · simp only [show (("today" == "today") = true) from rfl,
        show (("today" == "week") = false) from rfl, if_true, Bool.false_and,
        Bool.or_false]
    · have hcond : (!r.checkbox && (decide (d ≤ today) || (mkValidDates today).any (fun v => v == d)))
          = (!r.checkbox && (decide (d ≤ today) || (specNextFiveWeekdays today).contains d)) := by
        rw [mkValidDates_spec, Bool.eq_iff_iff]
        simp only [List.any_cons, Bool.and_eq_true, Bool.or_eq_true, List.any_eq_true,
          beq_iff_eq, decide_eq_true_eq, List.elem_iff]
        constructor
        · rintro ⟨hx, hh⟩
          refine ⟨hx, ?_⟩
          rcases hh with hh | hh | ⟨v, hv, rfl⟩
          · exact Or.inl hh
          · exact Or.inl (by omega)
          · exact Or.inr hv
        · rintro ⟨hx, hh⟩
          refine ⟨hx, ?_⟩
          rcases hh with hh | hh
          · exact Or.inl hh
          · exact Or.inr (Or.inr ⟨d, hh, rfl⟩)
      simp only [show (("week" == "today") = false) from rfl,
        show (("week" == "week") = true) from rfl, Bool.false_eq_true, if_false, if_true,
        Bool.true_and, hcond]

/-- The scan's per-sheet contribution agrees with the spec-side report. -/
theorem processSheet_eq_spec (env : Env) (h : env.period = "today" ∨ env.period = "week")
    (sh : Sheet) : processSheet env sh = specSheetReport env sh := by
  unfold processSheet specSheetReport
  have hf : (rowTask env.period env.today (mkValidDates env.today))
      = specTaskOf env.period env.today := by
    funext r
    exact rowTask_eq_specTaskOf env.period env.today r h
  rw [hf]

/-- With the time budget never exceeded, the scan loop finishes and appends
exactly the qualifying reports of the remaining sheets. -/
theorem scanGo_none (env : Env) :
    ∀ (rest : List Sheet) (i : Nat) (acc : List SheetReminder),
      scanGo env none i rest acc = .done (acc ++ rest.filterMap (processSheet env)) := by
  intro rest
  induction rest with
  | nil => intro i acc; simp [scanGo]
  | cons sh rest ih =>
    intro i acc
    simp only [scanGo]
    rw [ih]
    cases h : processSheet env sh <;>
      simp [h, List.filterMap_cons, Option.toList]

/-- With fuel smaller than the number of remaining sheets, the scan loop
suspends right where the fuel runs out, having appended exactly the
qualifying reports of the sheets it processed. -/
theorem scanGo_some_lt (env : Env) :
    ∀ (rest : List Sheet) (f i : Nat) (acc : List SheetReminder), f < rest.length →
      scanGo env (some f) i rest acc
        = .suspended (i + f) (acc ++ (rest.take f).filterMap (processSheet env)) := by
  intro rest
  induction rest with
  | nil => intro f i acc hf; simp at hf
  | cons sh rest ih =>
    intro f i acc hf
    cases f with
    | zero => simp [scanGo]
    | succ f =>
      simp only [scanGo]
      rw [ih f (i + 1) _ (by simpa using hf)]
      cases h : processSheet env sh <;>
        simp [h, List.filterMap_cons, Option.toList, Nat.add_assoc, Nat.add_comm 1 f]

/-- With fuel at least the number of remaining sheets, the scan loop
finishes just as with no time limit. -/
theorem scanGo_some_ge (env : Env) :
    ∀ (rest : List Sheet) (f i : Nat) (acc : List SheetReminder), rest.length ≤ f →
      scanGo env (some f) i rest acc = .done (acc ++ rest.filterMap (processSheet env)) := by
  intro rest
  induction rest with
  | nil => intro f i acc _; simp [scanGo]
  | cons sh rest ih =>
    intro f i acc hf
    cases f with
    | zero => simp at hf
    | succ f =>
      simp only [scanGo]
      rw [ih f (i + 1) _ (by simpa using hf)]
      cases h : processSheet env sh <;>
        simp [h, List.filterMap_cons, Option.toList]

/-- Splitting the qualifying reports at a cursor. -/
theorem reportsUpTo_append (env : Env) (c : Nat) :
    reportsUpTo env c ++ (env.sheets.drop c).filterMap (processSheet env) = fullScan env := by
  unfold reportsUpTo fullScan
  rw [← List.filterMap_append, List.take_append_drop]

/-- Extending a checkpoint's reports by the next `f` sheets' reports. -/
theorem reportsUpTo_add (env : Env) (c f : Nat) :
    reportsUpTo env c ++ ((env.sheets.drop c).take f).filterMap (processSheet env)
      = reportsUpTo env (c + f) := by
  unfold reportsUpTo
  rw [← List.filterMap_append, ← List.take_add]

/-- A clean start behaves like resuming a checkpoint at cursor 0 with an
empty accumulator. -/
theorem getReminderData_clean_eq_checkpoint0 (env : Env) (fuel : Option Nat)
    (ts : List TriggerRec) (st : Option String) :
    getReminderData env fuel (cleanProps ts st)
      = getReminderData env fuel (checkpointProps env 0 ts st) := rfl

/-- An uninterrupted invocation from a checkpoint completes with the reports
of a full scan, clears both checkpoint keys, deletes its own triggers and
writes `"NOT YET"` then `"COMPLETED"`. -/
theorem getReminderData_checkpoint_complete (env : Env) (c : Nat) (ts : List TriggerRec)
    (st : Option String) :
    getReminderData env none (checkpointProps env c ts st)
      = ⟨⟨none, none, some "COMPLETED", deleteOneTimeTriggers env.target env.period ts⟩,
         some (fullScan env), [some "NOT YET", some "COMPLETED"]⟩ := by
  unfold getReminderData checkpointProps loadReminders loadCursor
  simp only []
  rw [scanGo_none, reportsUpTo_append]

/-- An invocation from a checkpoint whose fuel covers the remaining sheets
also completes with the reports of a full scan. -/
theorem getReminderData_checkpoint_complete_ge (env : Env) (c f : Nat) (ts : List TriggerRec)
    (st : Option String) (h : env.sheets.length ≤ c + f) :
    getReminderData env (some f) (checkpointProps env c ts st)
      = ⟨⟨none, none, some "COMPLETED", deleteOneTimeTriggers env.target env.period ts⟩,
         some (fullScan env), [some "NOT YET", some "COMPLETED"]⟩ := by
  unfold getReminderData checkpointProps loadReminders loadCursor
  simp only []
  rw [scanGo_some_ge env _ f c _ (by rw [List.length_drop]; omega), reportsUpTo_append]

/-- An invocation from a checkpoint that runs out of fuel before the end
suspends: it persists the processed sheets' reports and the new cursor,
appends one continuation trigger, returns nothing, and leaves the completion
status at `"NOT YET"`. -/
theorem getReminderData_checkpoint_suspend (env : Env) (c f : Nat) (ts : List TriggerRec)
    (st : Option String) (h : c + f < env.sheets.length) :
    getReminderData env (some f) (checkpointProps env c ts st)
      = ⟨⟨some (some (reportsUpTo env (c + f))), some (some (c + f)), some "NOT YET",
          ts ++ [mkTrigger env.target env.period]⟩, none, [some "NOT YET"]⟩ := by
  unfold getReminderData checkpointProps loadReminders loadCursor
  simp only []
  rw [scanGo_some_lt env _ f c _ (by rw [List.length_drop]; omega), reportsUpTo_add]

/-- Scan-state consistency: either no checkpoint is stored, or the stored
reports are exactly those of the sheets before the stored cursor. -/
def ScanConsistent (env : Env) (p : Props) : Prop :=
  (p.storedData = none ∧ p.sheetIndex = none) ∨
  ∃ c, p.storedData = some (some (reportsUpTo env c)) ∧ p.sheetIndex = some (some c)

/-- One scan invocation preserves consistency, and whenever it returns a
value that value is the full-scan result. -/
theorem getReminderData_consistent (env : Env) (fuel : Option Nat) (p : Props)
    (h : ScanConsistent env p) :
    ScanConsistent env (getReminderData env fuel p).props ∧
      ∀ L, (getReminderData env fuel p).result = some L → L = fullScan env := by
  have key : ∀ c ts st,
      ScanConsistent env (getReminderData env fuel (checkpointProps env c ts st)).props ∧
        ∀ L, (getReminderData env fuel (checkpointProps env c ts st)).result = some L →
          L = fullScan env := by
    intro c ts st
    cases fuel with
    | none =>
      rw [getReminderData_checkpoint_complete]
      exact ⟨Or.inl ⟨rfl, rfl⟩, fun L hL => by cases hL; rfl⟩
    | some f =>
      by_cases hlt : c + f < env.sheets.length
      · rw [getReminderData_checkpoint_suspend env c f ts st hlt]
        exact ⟨Or.inr ⟨c + f, rfl, rfl⟩, fun L hL => by cases hL⟩
      · rw [getReminderData_checkpoint_complete_ge env c f ts st (by omega)]
        exact ⟨Or.inl ⟨rfl, rfl⟩, fun L hL => by cases hL; rfl⟩
  rcases h with ⟨h1, h2⟩ | ⟨c, h1, h2⟩
  · have hp : p = cleanProps p.triggers p.completion := by
      cases p; simp_all [cleanProps]
    rw [hp, getReminderData_clean_eq_checkpoint0]
    exact key 0 _ _
  · have hp : p = checkpointProps env c p.triggers p.completion := by
      cases p; simp_all [checkpointProps]
    rw [hp]
    exact key c _ _

/-- From any consistent state, an invocation whose budget is never exceeded
returns the full-scan result. -/
theorem getReminderData_none_result (env : Env) (p : Props) (h : ScanConsistent env p) :
    (getReminderData env none p).result = some (fullScan env) := by
  rcases h with ⟨h1, h2⟩ | ⟨c, h1, h2⟩
  · have hp : p = cleanProps p.triggers p.completion := by
      cases p; simp_all [cleanProps]
    rw [hp, getReminderData_clean_eq_checkpoint0, getReminderData_checkpoint_complete]
  · have hp : p = checkpointProps env c p.triggers p.completion := by
      cases p; simp_all [checkpointProps]
    rw [hp, getReminderData_checkpoint_complete]

/-- Any run sequence that ends with an invocation whose budget is never
exceeded produces the full-scan result, whatever the earlier suspensions. -/
theorem runScanSeq_spec (env : Env) :
    ∀ (fuels : List (Option Nat)) (p : Props), ScanConsistent env p →
      (runScanSeq env (fuels ++ [none]) p).2 = some (fullScan env) := by
  intro fuels
  induction fuels with
  | nil =>
    intro p hp
    show (getReminderData env none p).result = some (fullScan env)
    exact getReminderData_none_result env p hp
  | cons f fuels ih =>
    intro p hp
    have hstep : runScanSeq env ((f :: fuels) ++ [none]) p
        = runScanSeq env (fuels ++ [none]) (getReminderData env f p).props := by
      cases hl : fuels ++ [none] with
      | nil => simp at hl
      | cons a l =>
        show runScanSeq env (f :: (fuels ++ [none])) p = _
        rw [hl]
        rfl
    rw [hstep]
    exact ih _ (getReminderData_consistent env f p hp).1

/-- A qualifying row exists exactly when the spec-side extraction is
non-trivial. -/
theorem specTaskOf_ne_none (period : String) (today : Nat) (r : Row) :
    specTaskOf period today r ≠ none ↔ specQualifies period today r = true := by
  unfold specTaskOf
  cases hd : r.date with
  | none => simp [specQualifies, hd]
  | some d => by_cases hq : specQualifies period today r = true <;> simp [hq]

/-- C1: for every source list and a fixed current date, an uninterrupted
fresh scan returns exactly the spec-side output: one `SheetReminder` per
non-reserved source having at least one qualifying row (in enumeration
order, with that source's qualifying rows in row order), and a source has a
report iff it is not one of the two reserved index views and some row
qualifies — where a row qualifies iff its due-date cell is non-empty, it is
not checked complete, and its date is on or before today, or (WEEK horizon
only) equals one of the next five weekday-only dates. -/
theorem c1_scan_filters_by_horizon (env : Env)
    (h : env.period = "today" ∨ env.period = "week") :
    (getReminderData env none (cleanProps [] none)).result = some (specScanOutput env) ∧
      (∀ sh ∈ env.sheets, (specSheetReport env sh ≠ none ↔
        (¬(sh.sheetName = ONGOING_TASKS_INDEX_SHEET_NAME
            ∨ sh.sheetName = COMPLETED_TASKS_INDEX_SHEET_NAME)
          ∧ ∃ r ∈ sh.rows, specQualifies env.period env.today r = true))) := by
  constructor
  · rw [getReminderData_clean_eq_checkpoint0, getReminderData_checkpoint_complete]
    have hfull : fullScan env = specScanOutput env := by
      unfold fullScan specScanOutput
      have hf : processSheet env = specSheetReport env :=
        funext (processSheet_eq_spec env h)
      rw [hf]
    rw [hfull]
  · intro sh _
    unfold specSheetReport
    by_cases hres : (sh.sheetName == ONGOING_TASKS_INDEX_SHEET_NAME
        || sh.sheetName == COMPLETED_TASKS_INDEX_SHEET_NAME) = true
    · rw [if_pos hres]
      simp only [ne_eq, not_true_eq_false, false_iff, not_and]
      intro hnr
      exact absurd (by simpa using hres) hnr
    · rw [if_neg hres]
      have hnr : ¬(sh.sheetName = ONGOING_TASKS_INDEX_SHEET_NAME
          ∨ sh.sheetName = COMPLETED_TASKS_INDEX_SHEET_NAME) := by
        simpa using hres
      by_cases hemp : (sh.rows.filterMap (specTaskOf env.period env.today)).isEmpty = true
      · rw [if_pos hemp]
        simp only [ne_eq, not_true_eq_false, false_iff, not_and]
        intro _
        rw [List.isEmpty_iff, List.filterMap_eq_nil_iff] at hemp
        rintro ⟨r, hr, hq⟩
        rw [← specTaskOf_ne_none env.period env.today r] at hq
        exact hq (hemp r hr)
      · rw [if_neg hemp]
        have hx : ∃ r ∈ sh.rows, specQualifies env.period env.today r = true := by
          have hne : sh.rows.filterMap (specTaskOf env.period env.today) ≠ [] := by
            intro hc
            exact hemp (by simp [hc])
          rw [ne_eq, List.filterMap_eq_nil_iff] at hne
          push_neg at hne
          obtain ⟨r, hr, hrn⟩ := hne
          exact ⟨r, hr, (specTaskOf_ne_none env.period env.today r).mp hrn⟩
        constructor
        · intro _
          exact ⟨hnr, hx⟩
        · intro _
          simp

/-- A concrete row due on day 11 and assigned to staff "A". -/
def wRowA : Row := ⟨"t1", "n1", some 11, "A", false⟩

/-- A concrete row due on day 20, beyond the week window of day 11. -/
def wRowB : Row := ⟨"t2", "n2", some 20, "B", false⟩

/-- A concrete row with an empty due-date cell. -/
def wRowC : Row := ⟨"t3", "n3", none, "A", false⟩

/-- The reserved ongoing-task index view as a sheet. -/
def wSheetIdx : Sheet := ⟨"ongoing-task-index", 0, []⟩

/-- A concrete task sheet with one qualifying row. -/
def wSheet1 : Sheet := ⟨"Cat: One", 1, [wRowA, wRowB, wRowC]⟩

/-- A concrete task sheet with no rows. -/
def wSheet2 : Sheet := ⟨"Cat: Two", 2, []⟩

/-- A concrete task sheet with one overdue row assigned to staff "B". -/
def wSheet3 : Sheet := ⟨"Cat: Three", 3, [⟨"t4", "n4", some 5, "B", false⟩]⟩

/-- A concrete scan environment: four sheets, general target, today horizon,
current date day 11 (a Monday). -/
def wEnv : Env := ⟨[wSheetIdx, wSheet1, wSheet2, wSheet3], "https://s", "general", "today", 11⟩

/-- Witness for C1 at the concrete environment. -/
theorem c1_witness :
    (wEnv.period = "today" ∨ wEnv.period = "week") ∧
      (getReminderData wEnv none (cleanProps [] none)).result = some (specScanOutput wEnv) :=
  ⟨Or.inl rfl, (c1_scan_filters_by_horizon wEnv (Or.inl rfl)).1⟩

/-- C2: for an unchanged source list and fixed current date, any number of
suspended invocations followed by one that runs to completion returns the
same `SheetReminder` sequence — same sources, same order, nothing duplicated
or dropped — as a single uninterrupted scan. -/
theorem c2_resumption_transparent (env : Env) (fuels : List (Option Nat)) :
    (runScanSeq env (fuels ++ [none]) (cleanProps [] none)).2
        = (getReminderData env none (cleanProps [] none)).result ∧
      (getReminderData env none (cleanProps [] none)).result = some (fullScan env) := by
  have hclean : ScanConsistent env (cleanProps [] none) := Or.inl ⟨rfl, rfl⟩
  constructor
  · rw [runScanSeq_spec env fuels _ hclean, getReminderData_none_result env _ hclean]
  · exact getReminderData_none_result env _ hclean

/-- C3: when the time budget is exceeded before processing source index
`c + f` (after `f` sheets of this invocation, resumed from cursor `c`, or
after `f` sheets of a fresh run), the scan persists exactly the fully
processed sources' reports and the cursor `c + f` (resp. `f`), appends one
tagged continuation trigger, returns nothing, and the completion status
stays `"NOT YET"`. -/
theorem c3_suspend_checkpoints (env : Env) (c f : Nat) (ts : List TriggerRec)
    (st : Option String) (hcf : c + f < env.sheets.length) (hf : f < env.sheets.length) :
    (getReminderData env (some f) (checkpointProps env c ts st)
        = ⟨⟨some (some (reportsUpTo env (c + f))), some (some (c + f)), some "NOT YET",
            ts ++ [mkTrigger env.target env.period]⟩, none, [some "NOT YET"]⟩) ∧
      (getReminderData env (some f) (cleanProps ts st)
        = ⟨⟨some (some (reportsUpTo env f)), some (some f), some "NOT YET",
            ts ++ [mkTrigger env.target env.period]⟩, none, [some "NOT YET"]⟩) := by
  refine ⟨getReminderData_checkpoint_suspend env c f ts st hcf, ?_⟩
  rw [getReminderData_clean_eq_checkpoint0,
    getReminderData_checkpoint_suspend env 0 f ts st (by omega)]
  simp

/-- Witness for C3 at the concrete environment, resuming from cursor 1 with
fuel for one more sheet. -/
theorem c3_witness :
    (1 + 1 < wEnv.sheets.length ∧ 1 < wEnv.sheets.length) ∧
      (getReminderData wEnv (some 1) (checkpointProps wEnv 1 [] (some "NOT YET"))).result
          = none ∧
      (getReminderData wEnv (some 1)
          (checkpointProps wEnv 1 [] (some "NOT YET"))).props.sheetIndex = some (some 2) := by
  refine ⟨⟨by decide, by decide⟩, ?_⟩
  rw [(c3_suspend_checkpoints wEnv 1 1 [] (some "NOT YET") (by decide) (by decide)).1]
  exact ⟨rfl, rfl⟩

/-- A two-sheet environment for exercising a corrupt checkpoint. -/
def c7Env : Env := ⟨[wSheet1, wSheet3], "https://s", "general", "today", 11⟩

/-- A property state whose stored-reminders payload is malformed while the
cursor key still holds 1. -/
def c7BadProps : Props := ⟨some none, some (some 1), some "NOT YET", []⟩

/-- Counterexample to C7 as stated: with a malformed reminders payload and a
surviving cursor of 1, the scan does not restart from source index 0 — its
result omits the first sheet's report, so it does not behave as if no
checkpoint existed. -/
theorem c7_counterexample :
    (getReminderData c7Env none c7BadProps).result
        ≠ (getReminderData c7Env none (cleanProps [] none)).result ∧
      (getReminderData c7Env none c7BadProps).props.completion = some "COMPLETED" := by
  constructor
  · decide
  · rfl

/-- C7 amended: a malformed stored-reminders payload is treated exactly like
an absent one — the accumulator starts empty and no error is raised — but
the separately persisted cursor still applies, so the scan resumes from that
cursor rather than restarting at source index 0 (it restarts at 0 only when
the cursor entry is absent too). -/
theorem c7_malformed_payload_as_absent (env : Env) (fuel : Option Nat)
    (si : Option (Option Nat)) (st : Option String) (ts : List TriggerRec) :
    getReminderData env fuel ⟨some none, si, st, ts⟩
      = getReminderData env fuel ⟨none, si, st, ts⟩ := rfl

/-- C8: the per-staff filtered view keeps exactly the sheets having at least
one task of that staff member, restricted to exactly those tasks, in the
original sheet and task order, with name and URL unchanged; and every task
in the view belongs to that staff member. -/
theorem c8_staff_filter_characterization (reminderData : List SheetReminder)
    (staffName : String) :
    filterRemindersForStaff reminderData staffName
        = reminderData.filterMap (fun sr =>
            if sr.taskData.filter (fun task => task.staff == staffName) = [] then none
            else some ⟨sr.sheetName, sr.sheetURL,
              sr.taskData.filter (fun task => task.staff == staffName)⟩) ∧
      ∀ sr ∈ filterRemindersForStaff reminderData staffName,
        ∀ task ∈ sr.taskData, task.staff = staffName := by
  constructor
  · induction reminderData with
    | nil => rfl
    | cons sr rest ih =>
      unfold filterRemindersForStaff
      unfold filterRemindersForStaff at ih
      rw [List.filterMap_cons]
      by_cases hany : (sr.taskData.any (fun task => task.staff == staffName)) = true
      · rw [List.filter_cons, if_pos hany, List.map_cons, ih]
        have hne : ¬(sr.taskData.filter (fun task => task.staff == staffName) = []) := by
          rw [List.filter_eq_nil_iff]
          rw [List.any_eq_true] at hany
          obtain ⟨t, ht, hts⟩ := hany
          intro hall
          exact hall t ht hts
        rw [if_neg hne]
      · rw [List.filter_cons, if_neg hany, ih]
        have hnil : sr.taskData.filter (fun task => task.staff == staffName) = [] := by
          rw [List.filter_eq_nil_iff]
          intro t ht hts
          exact hany (List.any_eq_true.mpr ⟨t, ht, hts⟩)
        rw [if_pos hnil]
  · intro sr hsr task htask
    unfold filterRemindersForStaff at hsr
    rw [List.mem_map] at hsr
    obtain ⟨sr0, _, rfl⟩ := hsr
    simp only [List.mem_filter] at htask
    exact by simpa using htask.2

/-- C9: rendering replaces the destination document's content (the body is
cleared before the title and tables are appended), so rendering a finished
result twice yields the same final document as rendering it once. -/
theorem c9_render_idempotent (period docTitle : String)
    (reminderData : List SheetReminder) (d : Doc) :
    renderReminderDoc period docTitle reminderData
        (renderReminderDoc period docTitle reminderData d)
      = renderReminderDoc period docTitle reminderData d := by
  unfold renderReminderDoc createReminderTablesInDoc presetInDoc
  by_cases h : (period == "today") = true <;> simp [h]

/-- C10: when dispatch sees a `"COMPLETED"` status but the scan's value is
empty or not an array, it returns immediately: nothing is rendered, nothing
is sent, no status write happens, and the state — including the
`"COMPLETED"` status — is left untouched. -/
theorem c10_empty_result_noop (env : Env) (cfg : Config) (p : Props)
    (rd : Option (List SheetReminder)) (hst : p.completion = some "COMPLETED")
    (hrd : rd = none ∨ rd = some []) :
    dispatchStage env cfg p rd = ⟨p, [], [], []⟩ := by
  unfold dispatchStage
  rw [hst]
  rcases hrd with h | h <;> subst h <;> rfl

/-- A configuration snapshot with every destination set. -/
def wCfg : Config :=
  ⟨some "g@example.com",
   some ⟨some "https://docs.google.com/document/d/T/edit",
         some "https://docs.google.com/document/d/W/edit"⟩,
   some [("A", ⟨"a@example.com", some "https://docs.google.com/document/d/A/edit", none⟩)],
   "admin@example.com"⟩

/-- A property state whose completion status is `"COMPLETED"`. -/
def wDoneProps : Props := ⟨none, none, some "COMPLETED", []⟩

/-- Witness for C10 at a concrete state with an empty aggregated result. -/
theorem c10_witness :
    (wDoneProps.completion = some "COMPLETED" ∧
        ((some ([] : List SheetReminder)) = none ∨ (some ([] : List SheetReminder)) = some [])) ∧
      dispatchStage wEnv wCfg wDoneProps (some []) = ⟨wDoneProps, [], [], []⟩ :=
  ⟨⟨rfl, Or.inr rfl⟩, c10_empty_result_noop wEnv wCfg wDoneProps (some []) rfl (Or.inr rfl)⟩

/-- A concrete non-empty aggregation result. -/
def wRd : List SheetReminder :=
  [⟨"Cat: One", "https://s#gid=1", [⟨"t1", "n1", "Monday, January 12, 1970", "A"⟩]⟩]

/-- C4 fails on the code for the general audience: dispatch proceeds on
`"COMPLETED"` (it renders the document and sends the success notification),
yet every general-target branch returns before the trailing
`deleteProperty(completionStatusKey)`, so the completion status is left at
`"COMPLETED"` instead of being cleared. -/
theorem c4_general_dispatch_keeps_done :
    (dispatchStage wEnv wCfg wDoneProps (some wRd)).props.completion = some "COMPLETED" ∧
      (dispatchStage wEnv wCfg wDoneProps (some wRd)).emails ≠ [] ∧
      (dispatchStage wEnv wCfg wDoneProps (some wRd)).docs ≠ [] ∧
      (dispatchStage wEnv wCfg wDoneProps (some wRd)).statusWrites = [] := by
  refine ⟨rfl, by decide, by decide, rfl⟩

/-- C6: the continuation trigger is always tagged with its own (audience,
horizon) pair, and the constructed function name is a defined entry point
running that same pair for three of the four combinations — but for
(staffBased, week) the constructed name `runStaffBasedReminderWeek` is not a
defined entry point (the defined one is `runStaffBasedReminderNextWeek`), so
that continuation can never run. -/
theorem c6_week_trigger_name_mismatch :
    (∀ target period : String, (mkTrigger target period).target = target ∧
        (mkTrigger target period).period = period) ∧
      ((triggerFunctionName "general" "today", "general", "today") ∈ reminderEntryPoints ∧
        (triggerFunctionName "general" "week", "general", "week") ∈ reminderEntryPoints ∧
        (triggerFunctionName "staffBased" "today", "staffBased", "today")
          ∈ reminderEntryPoints) ∧
      triggerFunctionName "staffBased" "week" = "runStaffBasedReminderWeek" ∧
      (∀ e ∈ reminderEntryPoints, e.1 ≠ triggerFunctionName "staffBased" "week") ∧
      ("runStaffBasedReminderNextWeek", "staffBased", "week") ∈ reminderEntryPoints :=
  ⟨fun _ _ => ⟨rfl, rfl⟩, by decide, by decide, by decide, by decide⟩

/-- Unfolding equation for `getReminderData` in terms of its loaders. -/
theorem getReminderData_eq (env : Env) (fuel : Option Nat) (p : Props) :
    getReminderData env fuel p
      = (match loadCursor p.sheetIndex with
        | none =>
          ⟨⟨none, none, some "COMPLETED",
              deleteOneTimeTriggers env.target env.period p.triggers⟩,
            some (loadReminders p.storedData), [some "NOT YET", some "COMPLETED"]⟩
        | some c =>
          match scanGo env fuel c (env.sheets.drop c) (loadReminders p.storedData) with
          | .done acc =>
            ⟨⟨none, none, some "COMPLETED",
                deleteOneTimeTriggers env.target env.period p.triggers⟩,
              some acc, [some "NOT YET", some "COMPLETED"]⟩
          | .suspended i acc =>
            ⟨⟨some (some acc), some (some i), some "NOT YET",
                p.triggers ++ [mkTrigger env.target env.period]⟩,
              none, [some "NOT YET"]⟩) := rfl

/-- Unfolding equation for `getReminderData` once the cursor is known. -/
theorem getReminderData_cursor (env : Env) (fuel : Option Nat) (p : Props) (c : Nat)
    (h : loadCursor p.sheetIndex = some c) :
    getReminderData env fuel p
      = (match scanGo env fuel c (env.sheets.drop c) (loadReminders p.storedData) with
        | .done acc =>
          ⟨⟨none, none, some "COMPLETED",
              deleteOneTimeTriggers env.target env.period p.triggers⟩,
            some acc, [some "NOT YET", some "COMPLETED"]⟩
        | .suspended i acc =>
          ⟨⟨some (some acc), some (some i), some "NOT YET",
              p.triggers ++ [mkTrigger env.target env.period]⟩,
            none, [some "NOT YET"]⟩) := by
  rw [getReminderData_eq, h]

/-- Every scan invocation either suspends — leaving a checkpoint, a pending
status and a single `"NOT YET"` write — or completes, clearing the
checkpoint, deleting its triggers and writing `"NOT YET"` then
`"COMPLETED"`. -/
theorem getReminderData_shape (env : Env) (fuel : Option Nat) (p : Props) :
    (∃ i acc, getReminderData env fuel p
        = ⟨⟨some (some acc), some (some i), some "NOT YET",
            p.triggers ++ [mkTrigger env.target env.period]⟩, none, [some "NOT YET"]⟩)
    ∨ (∃ res, getReminderData env fuel p
        = ⟨⟨none, none, some "COMPLETED",
            deleteOneTimeTriggers env.target env.period p.triggers⟩,
           some res, [some "NOT YET", some "COMPLETED"]⟩) := by
  cases hcur : loadCursor p.sheetIndex with
  | none =>
    right
    refine ⟨loadReminders p.storedData, ?_⟩
    rw [getReminderData_eq, hcur]
  | some c =>
    rw [getReminderData_cursor env fuel p c hcur]
    cases hscan : scanGo env fuel c (env.sheets.drop c) (loadReminders p.storedData) with
    | done acc =>
      right
      exact ⟨acc, rfl⟩
    | suspended i acc =>
      left
      exact ⟨i, acc, rfl⟩

/-- Dispatch invoked while the status is `"NOT YET"` is a no-op. -/
theorem dispatchStage_pending_noop (env : Env) (cfg : Config) (p : Props)
    (rd : Option (List SheetReminder)) (h : p.completion = some "NOT YET") :
    dispatchStage env cfg p rd = ⟨p, [], [], []⟩ := by
  unfold dispatchStage
  rw [h]
  rfl

/-- Dispatch invoked while the status key is absent is a no-op. -/
theorem dispatchStage_absent_noop (env : Env) (cfg : Config) (p : Props)
    (rd : Option (List SheetReminder)) (h : p.completion = none) :
    dispatchStage env cfg p rd = ⟨p, [], [], []⟩ := by
  unfold dispatchStage
  rw [h]
  rfl

/-- Every dispatch invocation either performs no status write and leaves the
property state unchanged, or performs exactly one delete, and only from a
`"COMPLETED"` status. -/
theorem dispatchStage_shape (env : Env) (cfg : Config) (p : Props)
    (rd : Option (List SheetReminder)) :
    ((dispatchStage env cfg p rd).statusWrites = []
        ∧ (dispatchStage env cfg p rd).props = p)
    ∨ ((dispatchStage env cfg p rd).statusWrites = [none]
        ∧ p.completion = some "COMPLETED"
        ∧ (dispatchStage env cfg p rd).props = { p with completion := none }) := by
  unfold dispatchStage
  by_cases h1 : (p.completion == some "NOT YET") = true
  · rw [if_pos h1]; left; exact ⟨rfl, rfl⟩
  · rw [if_neg h1]
    by_cases h2 : (p.completion == some "COMPLETED") = true
    · rw [if_pos h2]
      have hc : p.completion = some "COMPLETED" := eq_of_beq h2
      match rd with
      | none => left; exact ⟨rfl, rfl⟩
      | some [] => left; exact ⟨rfl, rfl⟩
      | some (r :: rs) =>
        simp only []
        by_cases h3 : (env.target == "general") = true
        · rw [if_pos h3]
          match cfg.generalReminderEmails, cfg.generalReminderDocsUrls with
          | some emails, some urls =>
            simp only []
            by_cases h4 : (env.period == "today") = true
            · rw [if_pos h4]
              match urls.generalTodayReminderDocUrl with
              | some url => left; exact ⟨rfl, rfl⟩
              | none => left; exact ⟨rfl, rfl⟩
            · rw [if_neg h4]
              by_cases h5 : (env.period == "week") = true
              · rw [if_pos h5]
                match urls.generalWeekReminderDocUrl with
                | some url => left; exact ⟨rfl, rfl⟩
                | none => left; exact ⟨rfl, rfl⟩
              · rw [if_neg h5]
                right; exact ⟨rfl, hc, rfl⟩
          | some emails, none => left; exact ⟨rfl, rfl⟩
          | none, some urls => left; exact ⟨rfl, rfl⟩
          | none, none => left; exact ⟨rfl, rfl⟩
        · rw [if_neg h3]
          by_cases h6 : (env.target == "staffBased") = true
          · rw [if_pos h6]
            match cfg.staffBasedReminderData with
            | some staffList => right; exact ⟨rfl, hc, rfl⟩
            | none => left; exact ⟨rfl, rfl⟩
          · rw [if_neg h6]
            right; exact ⟨rfl, hc, rfl⟩
    · rw [if_neg h2]; left; exact ⟨rfl, rfl⟩

/-- The completion-status writes of one full `shareRemindersByDoc` call:
always `"NOT YET"` first; `"COMPLETED"` exactly when the scan finished; a
delete only after `"COMPLETED"`. -/
theorem shareRemindersByDoc_trace (env : Env) (cfg : Config) (fuel : Option Nat) (p : Props) :
    (shareRemindersByDoc env cfg fuel p).statusWrites = [some "NOT YET"]
      ∨ (shareRemindersByDoc env cfg fuel p).statusWrites
          = [some "NOT YET", some "COMPLETED"]
      ∨ (shareRemindersByDoc env cfg fuel p).statusWrites
          = [some "NOT YET", some "COMPLETED", none] := by
  unfold shareRemindersByDoc
  rcases getReminderData_shape env fuel p with ⟨i, acc, heq⟩ | ⟨res, heq⟩
  · rw [heq]
    simp only []
    rw [dispatchStage_pending_noop env cfg
      ⟨some (some acc), some (some i), some "NOT YET",
        p.triggers ++ [mkTrigger env.target env.period]⟩ none rfl]
    left; rfl
  · rw [heq]
    simp only []
    rcases dispatchStage_shape env cfg
        ⟨none, none, some "COMPLETED", deleteOneTimeTriggers env.target env.period p.triggers⟩
        (some res) with ⟨hw, _⟩ | ⟨hw, _, _⟩
    · right; left
      rw [hw]
      simp
    · right; right
      rw [hw]
      simp

/-- C5: the completion status follows the ABSENT/DONE → PENDING → DONE →
ABSENT discipline. Every scan invocation writes PENDING (`"NOT YET"`) first;
it writes DONE (`"COMPLETED"`) exactly when it finished all sources (it
returned a value), and never deletes the key. Every dispatch invocation
either leaves the state untouched with no status write, or performs exactly
one delete, and only from DONE. Dispatch invoked on PENDING, or with the key
absent, is a no-op: no email, no rendered document, no state change. A full
pipeline call therefore writes one of the traces [PENDING], [PENDING, DONE],
[PENDING, DONE, delete]. -/
theorem c5_gate_discipline :
    (∀ (env : Env) (fuel : Option Nat) (p : Props),
        ((getReminderData env fuel p).statusWrites = [some "NOT YET"]
            ∧ (getReminderData env fuel p).result = none
            ∧ (getReminderData env fuel p).props.completion = some "NOT YET")
          ∨ ((getReminderData env fuel p).statusWrites
                = [some "NOT YET", some "COMPLETED"]
            ∧ (getReminderData env fuel p).result ≠ none
            ∧ (getReminderData env fuel p).props.completion = some "COMPLETED")) ∧
      (∀ (env : Env) (cfg : Config) (p : Props) (rd : Option (List SheetReminder)),
        ((dispatchStage env cfg p rd).statusWrites = []
            ∧ (dispatchStage env cfg p rd).props = p)
          ∨ ((dispatchStage env cfg p rd).statusWrites = [none]
            ∧ p.completion = some "COMPLETED"
            ∧ (dispatchStage env cfg p rd).props = { p with completion := none })) ∧
      (∀ (env : Env) (cfg : Config) (p : Props) (rd : Option (List SheetReminder)),
        p.completion = some "NOT YET" → dispatchStage env cfg p rd = ⟨p, [], [], []⟩) ∧
      (∀ (env : Env) (cfg : Config) (p : Props) (rd : Option (List SheetReminder)),
        p.completion = none → dispatchStage env cfg p rd = ⟨p, [], [], []⟩) ∧
      (∀ (env : Env) (cfg : Config) (fuel : Option Nat) (p : Props),
        (shareRemindersByDoc env cfg fuel p).statusWrites = [some "NOT YET"]
          ∨ (shareRemindersByDoc env cfg fuel p).statusWrites
              = [some "NOT YET", some "COMPLETED"]
          ∨ (shareRemindersByDoc env cfg fuel p).statusWrites
              = [some "NOT YET", some "COMPLETED", none]) := by
  refine ⟨?_, dispatchStage_shape, dispatchStage_pending_noop,
    dispatchStage_absent_noop, shareRemindersByDoc_trace⟩
  intro env fuel p
  rcases getReminderData_shape env fuel p with ⟨i, acc, heq⟩ | ⟨res, heq⟩
  · left
    rw [heq]
    exact ⟨rfl, rfl, rfl⟩
  · right
    rw [heq]
    exact ⟨rfl, by simp, rfl⟩

/-- Witness for C5: dispatch invoked at a concrete PENDING state is a no-op. -/
theorem c5_witness :
    ((⟨none, none, some "NOT YET", []⟩ : Props).completion = some "NOT YET") ∧
      dispatchStage wEnv wCfg ⟨none, none, some "NOT YET", []⟩ none
        = ⟨⟨none, none, some "NOT YET", []⟩, [], [], []⟩ :=
  ⟨rfl, c5_gate_discipline.2.2.1 wEnv wCfg ⟨none, none, some "NOT YET", []⟩ none rfl⟩
